import Mathlib

/-!
Verification development for the `metcd` repository: a replicated key-value
store backed by a Raft consensus node.  The HTTP request handler
(`httpapi.go`) is embedded directly from its source.  The `raftnode`
package (Node Manager, Proposal Pipe, Commit Pipeline, snapshot policy)
and the in-memory `kvstore` are not part of the source tree here; the
parts of their behaviour needed by the spec's claims are modelled from
the specification's own words, each such definition carrying a
`Modelled from the spec:` doc comment.
-/

namespace Metcd

/-! ## Go `strconv.ParseUint(s, 0, 64)` — base inferred from the prefix

Embeds the standard-library parser the handler calls on `key[1:]` for
POST and DELETE requests (`httpapi.go` lines 70, 86).  A parse that Go
reports with a non-nil error (syntax or range) is `none`. -/

/-- Go's `lower(c) = c | ('x'-'X')`: set the 0x20 bit of the byte. -/
def lowerChar (c : Char) : Char := Char.ofNat (c.toNat ||| 32)

/-- Maximum value of an unsigned 64-bit integer (`bitSize = 64`). -/
def uintMax64 : Nat := 2 ^ 64 - 1

/-- Digit classification of Go's `ParseUint` loop: `'0'..'9'` map to 0–9,
letters map through `lower` to 10–35, anything else is a syntax error. -/
def digitVal (c : Char) : Option Nat :=
  if '0' ≤ c ∧ c ≤ '9' then some (c.toNat - '0'.toNat)
  else if 'a' ≤ lowerChar c ∧ lowerChar c ≤ 'z' then
    some ((lowerChar c).toNat - 'a'.toNat + 10)
  else none

/-- Base inference of `ParseUint` when `base == 0`: a `0b`/`0o`/`0x`
prefix (only when at least one character follows it, Go's
`len(s) >= 3`) selects base 2/8/16 and is consumed; a bare leading `0`
selects base 8; otherwise base 10. -/
def pickBase : List Char → Nat × List Char
  | '0' :: c :: rest =>
    if rest ≠ [] ∧ lowerChar c = 'b' then (2, rest)
    else if rest ≠ [] ∧ lowerChar c = 'o' then (8, rest)
    else if rest ≠ [] ∧ lowerChar c = 'x' then (16, rest)
    else (8, c :: rest)
  | '0' :: [] => (8, [])
  | cs => (10, cs)

/-- The accumulation loop of `ParseUint`: underscores are skipped (and
recorded) because the call site uses `base == 0`; a digit of another
base is a syntax error; exceeding `1<<64 - 1` is a range error.  Returns
the value and whether an underscore was seen. -/
def parseLoop (base : Nat) : Nat → Bool → List Char → Option (Nat × Bool)
  | n, u, [] => some (n, u)
  | n, u, c :: rest =>
    if c = '_' then parseLoop base n true rest
    else
      match digitVal c with
      | none => none
      | some d =>
        if base ≤ d then none
        else if uintMax64 < n * base + d then none
        else parseLoop base (n * base + d) u rest

/-- Loop of Go's `underscoreOK`: tracks the last character class seen
(`'^'` start, `'0'` digit or base prefix, `'_'` underscore, `'!'` other);
an underscore must sit between two digits. -/
def underscoreOKLoop (hex : Bool) : Char → List Char → Bool
  | saw, [] => saw ≠ '_'
  | saw, c :: rest =>
    if ('0' ≤ c ∧ c ≤ '9') ∨ (hex ∧ 'a' ≤ lowerChar c ∧ lowerChar c ≤ 'f') then
      underscoreOKLoop hex '0' rest
    else if c = '_' then
      if saw ≠ '0' then false else underscoreOKLoop hex '_' rest
    else if saw = '_' then false
    else underscoreOKLoop hex '!' rest

/-- Go's `underscoreOK(s)`: underscores are legal only as separators
between digits of the inferred base; an optional sign and a `0b`/`0o`/`0x`
prefix (the prefix counting as a digit) are skipped first. -/
def underscoreOKGo (s : List Char) : Bool :=
  let s1 := match s with
    | c :: rest => if c = '-' ∨ c = '+' then rest else s
    | [] => s
  match s1 with
  | '0' :: c :: rest =>
    if lowerChar c = 'b' ∨ lowerChar c = 'o' ∨ lowerChar c = 'x' then
      underscoreOKLoop (lowerChar c = 'x') '0' rest
    else underscoreOKLoop false '^' s1
  | _ => underscoreOKLoop false '^' s1

/-- `strconv.ParseUint(s, 0, 64)` as called by the handler: empty input
is a syntax error; otherwise the base is inferred from the prefix, the
digits accumulated with an overflow check against `1<<64 - 1`, and if
any underscore was consumed the whole original string must pass
`underscoreOK`. -/
def parseUint0 (s : String) : Option Nat :=
  let cs := s.toList
  if cs = [] then none
  else
    let p := pickBase cs
    match parseLoop p.1 0 false p.2 with
    | none => none
    | some r => if r.2 ∧ ¬underscoreOKGo cs then none else some r.1

/-! ## The HTTP key-value API handler (`httpapi.go`, `httpKVAPI.ServeHTTP`)

The handler's collaborators are abstracted at their call sites exactly as
the handler observes them: the store's `Lookup` is a partial map from
keys to values, `store.Propose` and the send on `confChangeC` are
recorded as emitted effects, `rc.LinearizableReadNotify` is the success
or failure of that confirmation for this request, and `rc.ID()` /
`rc.IsLeader()` are the node's identity data. -/

inductive ConfChangeType where
  | add
  | remove
deriving DecidableEq

/-- A `raftpb.ConfChange` as the handler builds it: type, node ID, and
context (the peer address body for add-node, empty for remove-node). -/
structure ConfChange where
  type : ConfChangeType
  nodeID : Nat
  context : String
deriving DecidableEq

inductive Method where
  | put
  | get
  | post
  | delete
  | head
  | other
deriving DecidableEq

/-- An incoming request as the handler consumes it: the method, the raw
`r.RequestURI` (the key, leading slash included), the result of
`io.ReadAll(r.Body)` (`none` is a read error), and whether
`rc.LinearizableReadNotify(r.Context())` returned a nil error. -/
structure Request where
  method : Method
  requestURI : String
  body : Option String
  linearizableReadOk : Bool
deriving DecidableEq

/-- Everything one `ServeHTTP` call produces: the HTTP status, the bytes
written to the response, the response headers added, the
`store.Propose(key, value)` calls made, and the `raftpb.ConfChange`
values sent on `confChangeC`, each in order. -/
structure ServeResult where
  status : Nat
  body : String
  headers : List (String × String)
  proposals : List (String × String)
  confChanges : List ConfChange
deriving DecidableEq

/-- `httpKVAPI.ServeHTTP` (httpapi.go lines 35–112), branch by branch.
`store` is the map `h.store.Lookup` consults; `nodeID`/`isLeader` are
`h.rc.ID()` and `h.rc.IsLeader()`. -/
def serveHTTP (store : String → Option String) (nodeID : Nat) (isLeader : Bool)
    (r : Request) : ServeResult :=
  let key := r.requestURI
  match r.method with
  | .put =>
    match r.body with
    | none =>
      { status := 400, body := "Failed on PUT", headers := [],
        proposals := [], confChanges := [] }
    | some v =>
      { status := 204, body := "", headers := [],
        proposals := [(key, v)], confChanges := [] }
  | .get =>
    if r.linearizableReadOk then
      match store key with
      | some v =>
        { status := 200, body := v, headers := [],
          proposals := [], confChanges := [] }
      | none =>
        { status := 404, body := "Failed to GET", headers := [],
          proposals := [], confChanges := [] }
    else
      { status := 400, body := "Failed on GET", headers := [],
        proposals := [], confChanges := [] }
  | .post =>
    match r.body with
    | none =>
      { status := 400, body := "Failed on POST", headers := [],
        proposals := [], confChanges := [] }
    | some url =>
      match parseUint0 (key.drop 1) with
      | none =>
        { status := 400, body := "Failed on POST", headers := [],
          proposals := [], confChanges := [] }
      | some nid =>
        { status := 204, body := "", headers := [],
          proposals := [],
          confChanges := [{ type := .add, nodeID := nid, context := url }] }
  | .delete =>
    match parseUint0 (key.drop 1) with
    | none =>
      { status := 400, body := "Failed on DELETE", headers := [],
        proposals := [], confChanges := [] }
    | some nid =>
      { status := 204, body := "", headers := [],
        proposals := [],
        confChanges := [{ type := .remove, nodeID := nid, context := "" }] }
  | .head =>
    { status := 200, body := "", headers :=
        [("X-ID", toString nodeID), ("X-IS-Leader", if isLeader then "true" else "false")],
      proposals := [], confChanges := [] }
  | .other =>
    { status := 405, body := "Method not allowed",
      headers := [("Allow", "PUT"), ("Allow", "GET"), ("Allow", "POST"), ("Allow", "DELETE")],
      proposals := [], confChanges := [] }

/-- Modelled from the spec: the in-memory key-value map (its source file
is absent from the tree; the spec calls it "the trivial in-memory
key-value map").  Applying a committed PUT proposal `(k, v)` updates the
map so that `Lookup k` afterwards returns exactly `v` and every other
key is unchanged. -/
def kvApplyCommit (store : String → Option String) (kv : String × String) :
    String → Option String :=
  fun k => if k = kv.1 then some kv.2 else store k

/-! ## The Raft node manager (`raftnode` package)

The `raftnode` package's source is not in the tree — only its tests and
callers are — so the behaviour the claims depend on is modelled from the
specification: the Proposal Pipe lifecycle (§4.4), the driving loop's
commit delivery and shutdown (§4.1, §5), and the snapshot policy with
its backpressure gate (§4.2). -/

/-- Modelled from the spec: the Proposal Pipe (§4.4, source absent) —
"a single channel-like conduit for submitting proposal payloads, paired
with an explicit, idempotent close operation".  `queued` holds payloads
accepted and not yet consumed by the Node Manager. -/
structure ProposePipe where
  closed : Bool
  queued : List String
deriving DecidableEq

/-- Modelled from the spec: `ProposePipe.Close` — the explicit,
idempotent close operation; no further submissions are accepted after
it. -/
def ProposePipe.close (p : ProposePipe) : ProposePipe :=
  { p with closed := true }

/-- Modelled from the spec: proposal submission — "accepted only while
the Proposal Pipe remains open; submission after close is a no-op,
never a fault".  The operation always returns a pipe (there is no error
outcome); after close the pipe is returned unchanged. -/
def ProposePipe.propose (p : ProposePipe) (s : String) : ProposePipe :=
  if p.closed then p else { p with queued := p.queued ++ [s] }

/-- A Commit Batch as delivered on the commit channel: the index of its
first entry and the ordered payloads (`Commit.Data`). -/
structure Commit where
  index : Nat
  data : List String
deriving DecidableEq

/-- Boundary inputs of the Node Manager's driving loop that the claims
exercise: a proposal arriving on the Proposal Pipe, a readiness cycle of
the Consensus Engine committing everything pending, and the close of
the Proposal Pipe. -/
inductive NodeEvent where
  | propose (s : String)
  | ready
  | closePipe
deriving DecidableEq

/-- Application-visible outputs of the Node Manager: a Commit Batch on
the commit channel, the close of the commit channel, a value on the
completion/error signal, and the close of that signal channel. -/
inductive NodeOutput where
  | commit (c : Commit)
  | commitChanClosed
  | errorSignal (e : Option String)
  | errorChanClosed
deriving DecidableEq

/-- The outputs of a clean shutdown in order: the Commit Pipeline is
closed, the completion signal fires with `nil`, and the signal channel
is closed. -/
def closureOuts : List NodeOutput :=
  [.commitChanClosed, .errorSignal none, .errorChanClosed]

/-- Modelled from the spec: the Node Manager's driving loop (§4.1, §5,
source absent) on a single-node cluster.  `i` is the index the next
committed entry will receive, `pending` the proposals accepted but not
yet committed.  A proposal is appended to the pending log; a readiness
cycle publishes all newly committed entries as one Commit Batch in
strictly increasing index order; closing the Proposal Pipe flushes the
already-submitted proposals and then shuts down cleanly, ignoring
everything after the close. -/
def runNode : Nat → List String → List NodeEvent → List NodeOutput
  | _, _, [] => []
  | i, pending, .propose s :: rest => runNode i (pending ++ [s]) rest
  | i, pending, .ready :: rest =>
    if pending = [] then runNode i pending rest
    else .commit ⟨i, pending⟩ :: runNode (i + pending.length) [] rest
  | i, pending, .closePipe :: _ =>
    (if pending = [] then [] else [.commit ⟨i, pending⟩]) ++ closureOuts

/-- The payloads submitted through the Proposal Pipe, in submission
order. -/
def proposalsOf : List NodeEvent → List String
  | [] => []
  | .propose s :: rest => s :: proposalsOf rest
  | _ :: rest => proposalsOf rest

/-- The Commit Batches among a node's outputs, in delivery order. -/
def commitsOf : List NodeOutput → List Commit
  | [] => []
  | .commit c :: rest => c :: commitsOf rest
  | _ :: rest => commitsOf rest

/-- Batches are consecutive from index `i`: each batch is nonempty,
starts no earlier than the running index, and advances it by its
length. -/
def IdxOrdered : Nat → List Commit → Prop
  | _, [] => True
  | i, c :: cs => i ≤ c.index ∧ c.data ≠ [] ∧ IdxOrdered (c.index + c.data.length) cs

/-- Modelled from the spec: the state the snapshot policy reads and
writes (§3 cursors, §4.2): the Applied Index, the Snapshot Index, the
index up to which the Durable Log Store has been compacted (entries
above it are retained), and how many snapshots have been written. -/
structure SnapPolicyState where
  appliedIndex : Nat
  snapshotIndex : Nat
  compactedTo : Nat
  snapshotsTaken : Nat
deriving DecidableEq

/-- Modelled from the spec: the snapshot trigger of the Commit Pipeline
(§4.2, source absent).  With trigger count `K` and catch-up retention
`R`: when fewer than `K` entries have been applied since the last
snapshot nothing happens; once the count crosses `K` the manager "must
not actually write the next snapshot or advance the Snapshot Index
until the previous batch's completion handle has signaled done"; when
that handle is closed it writes the snapshot, advances the Snapshot
Index to the Applied Index, and compacts the log up to the snapshotted
index minus the retention window `R`.  Returns the new state and
whether a snapshot was taken. -/
def maybeTriggerSnapshot (K R : Nat) (s : SnapPolicyState) (applyDoneClosed : Bool) :
    SnapPolicyState × Bool :=
  if s.appliedIndex - s.snapshotIndex < K then (s, false)
  else if applyDoneClosed then
    ({ appliedIndex := s.appliedIndex
       snapshotIndex := s.appliedIndex
       compactedTo := s.appliedIndex - R
       snapshotsTaken := s.snapshotsTaken + 1 }, true)
  else (s, false)

/-! ## Helper lemmas about the Node Manager run -/

/-- The concatenation of the payloads of a list of Commit Batches, in
delivery order. -/
def commitData : List Commit → List String
  | [] => []
  | c :: cs => c.data ++ commitData cs

theorem commitsOf_map_commit_append_closure (cs : List Commit) :
    commitsOf (cs.map NodeOutput.commit ++ closureOuts) = cs := by
  induction cs with
  | nil => rfl
  | cons c cs ih =>
    show c :: commitsOf (cs.map NodeOutput.commit ++ closureOuts) = c :: cs
    rw [ih]

theorem idxOrdered_chain {i : Nat} {cs : List Commit} (h : IdxOrdered i cs) :
    List.Chain' (fun a b => a.index < b.index) cs := by
  induction cs generalizing i with
  | nil => exact List.chain'_nil
  | cons c cs ih =>
    obtain ⟨h1, h2, h3⟩ := h
    cases cs with
    | nil => simp
    | cons c2 cs2 =>
      refine List.chain'_cons.mpr ⟨?_, ih h3⟩
      have hpos : 0 < c.data.length := List.length_pos.mpr h2
      have h4 : c.index + c.data.length ≤ c2.index := h3.1
      omega

/-- Running the loop on any sequence of proposals and readiness cycles
followed by the close of the Proposal Pipe yields some list of Commit
Batches followed by the clean-shutdown outputs; the batches carry the
pending payloads and then every payload proposed before the close, in
submission order, and are consecutively indexed from the start index. -/
theorem runNode_close_run (evs : List NodeEvent) : ∀ (rest : List NodeEvent),
    NodeEvent.closePipe ∉ evs → ∀ (i : Nat) (pending : List String),
    ∃ cs : List Commit,
      runNode i pending (evs ++ NodeEvent.closePipe :: rest)
        = cs.map NodeOutput.commit ++ closureOuts
      ∧ commitData cs = pending ++ proposalsOf evs
      ∧ IdxOrdered i cs := by
  induction evs with
  | nil =>
    intro rest _ i pending
    by_cases hp : pending = []
    · exact ⟨[], by simp [runNode, hp], by simp [hp, proposalsOf, commitData], trivial⟩
    · exact ⟨[⟨i, pending⟩], by simp [runNode, hp],
        by simp [proposalsOf, commitData], ⟨le_refl i, hp, trivial⟩⟩
  | cons e evs ih =>
    intro rest hno i pending
    have hno' : NodeEvent.closePipe ∉ evs := fun h => hno (List.mem_cons_of_mem _ h)
    cases e with
    | propose s =>
      obtain ⟨cs, h1, h2, h3⟩ := ih rest hno' i (pending ++ [s])
      refine ⟨cs, by simpa [runNode] using h1, ?_, h3⟩
      rw [h2]
      simp [proposalsOf]
    | ready =>
      by_cases hp : pending = []
      · subst hp
        obtain ⟨cs, h1, h2, h3⟩ := ih rest hno' i []
        exact ⟨cs, by simpa [runNode] using h1, by simpa [proposalsOf] using h2, h3⟩
      · obtain ⟨cs, h1, h2, h3⟩ := ih rest hno' (i + pending.length) []
        refine ⟨⟨i, pending⟩ :: cs, ?_, ?_, le_refl i, hp, h3⟩
        · simp [runNode, hp, h1]
        · simp only [commitData] at h2 ⊢
          rw [h2]
          simp [proposalsOf]
    | closePipe => exact absurd (List.mem_cons_self _ _) hno

/-! ## The claims -/

/-- C1: with snapshot trigger count K and catch-up retention R, once K
entries have been applied since the last snapshot but the most recent
Commit Batch's completion handle is not yet closed, no snapshot is
taken and the policy state is unchanged; once the handle is closed a
snapshot is taken, the Snapshot Index advances to the Applied Index,
and the log is compacted so that at least R trailing entries are
retained. -/
theorem snapshot_gate_and_compaction (K R : Nat) (s : SnapPolicyState)
    (hK : K ≤ s.appliedIndex - s.snapshotIndex) (hR : R ≤ s.appliedIndex) :
    maybeTriggerSnapshot K R s false = (s, false)
    ∧ (maybeTriggerSnapshot K R s true).2 = true
    ∧ (maybeTriggerSnapshot K R s true).1.snapshotIndex = s.appliedIndex
    ∧ R ≤ s.appliedIndex - (maybeTriggerSnapshot K R s true).1.compactedTo
    ∧ (maybeTriggerSnapshot K R s true).1.snapshotsTaken = s.snapshotsTaken + 1 := by
  have hc : ¬ (s.appliedIndex - s.snapshotIndex < K) := by omega
  refine ⟨by simp [maybeTriggerSnapshot, hc], ?_, ?_, ?_, ?_⟩
  · simp [maybeTriggerSnapshot, hc]
  · simp [maybeTriggerSnapshot, hc]
  · simp [maybeTriggerSnapshot, hc]
    omega
  · simp [maybeTriggerSnapshot, hc]

theorem snapshot_gate_and_compaction_witness :
    (4 ≤ 5 - 0 ∧ 4 ≤ 5)
    ∧ (maybeTriggerSnapshot 4 4 ⟨5, 0, 0, 0⟩ false = (⟨5, 0, 0, 0⟩, false)
       ∧ (maybeTriggerSnapshot 4 4 ⟨5, 0, 0, 0⟩ true).2 = true
       ∧ (maybeTriggerSnapshot 4 4 ⟨5, 0, 0, 0⟩ true).1.snapshotIndex = 5
       ∧ 4 ≤ 5 - (maybeTriggerSnapshot 4 4 ⟨5, 0, 0, 0⟩ true).1.compactedTo
       ∧ (maybeTriggerSnapshot 4 4 ⟨5, 0, 0, 0⟩ true).1.snapshotsTaken = 0 + 1) :=
  ⟨by decide, snapshot_gate_and_compaction 4 4 ⟨5, 0, 0, 0⟩ (by decide) (by decide)⟩

/-- C2: for every sequence of proposals accepted before the Proposal
Pipe closes on a single-node cluster, interleaved with any schedule of
readiness cycles, all payloads are delivered via Commit Batches in
exactly the order submitted, and the batches are delivered in strictly
increasing index order. -/
theorem commit_delivery_ordered (evs rest : List NodeEvent)
    (hno : NodeEvent.closePipe ∉ evs) :
    commitData (commitsOf (runNode 1 [] (evs ++ NodeEvent.closePipe :: rest)))
      = proposalsOf evs
    ∧ List.Chain' (fun a b => a.index < b.index)
        (commitsOf (runNode 1 [] (evs ++ NodeEvent.closePipe :: rest))) := by
  obtain ⟨cs, h1, h2, h3⟩ := runNode_close_run evs rest hno 1 []
  rw [h1, commitsOf_map_commit_append_closure]
  exact ⟨by simpa using h2, idxOrdered_chain h3⟩

theorem commit_delivery_ordered_witness :
    (NodeEvent.closePipe ∉
      [NodeEvent.propose "a", NodeEvent.ready, NodeEvent.propose "b"])
    ∧ (commitData (commitsOf (runNode 1 []
          ([NodeEvent.propose "a", NodeEvent.ready, NodeEvent.propose "b"]
            ++ NodeEvent.closePipe :: [])))
        = proposalsOf [NodeEvent.propose "a", NodeEvent.ready, NodeEvent.propose "b"]
       ∧ List.Chain' (fun a b => a.index < b.index)
          (commitsOf (runNode 1 []
            ([NodeEvent.propose "a", NodeEvent.ready, NodeEvent.propose "b"]
              ++ NodeEvent.closePipe :: [])))) :=
  ⟨by decide,
   commit_delivery_ordered
     [NodeEvent.propose "a", NodeEvent.ready, NodeEvent.propose "b"] [] (by decide)⟩

/-- C3: closing the Proposal Pipe before any proposal is submitted
shuts the node down cleanly: no Commit Batch is delivered, the commit
channel is closed, the completion signal fires exactly once carrying
`nil`, and the signal channel is closed exactly once. -/
theorem close_before_any_proposal (rest : List NodeEvent) :
    runNode 1 [] (NodeEvent.closePipe :: rest)
      = [NodeOutput.commitChanClosed, NodeOutput.errorSignal none,
         NodeOutput.errorChanClosed]
    ∧ commitsOf (runNode 1 [] (NodeEvent.closePipe :: rest)) = [] :=
  ⟨rfl, rfl⟩

/-- C4: closing the Proposal Pipe while previously submitted proposals
are still in flight still delivers every already-submitted payload via
Commit Batches, all of them before the shutdown outputs (commit-channel
close and completion signal). -/
theorem close_inflight_delivers (evs rest : List NodeEvent)
    (hno : NodeEvent.closePipe ∉ evs) :
    ∃ cs : List Commit,
      runNode 1 [] (evs ++ NodeEvent.closePipe :: rest)
        = cs.map NodeOutput.commit ++ closureOuts
      ∧ commitData cs = proposalsOf evs := by
  obtain ⟨cs, h1, h2, _⟩ := runNode_close_run evs rest hno 1 []
  exact ⟨cs, h1, by simpa using h2⟩

theorem close_inflight_delivers_witness :
    (NodeEvent.closePipe ∉ [NodeEvent.propose "foo", NodeEvent.propose "bar"])
    ∧ ∃ cs : List Commit,
        runNode 1 [] ([NodeEvent.propose "foo", NodeEvent.propose "bar"]
            ++ NodeEvent.closePipe :: [])
          = cs.map NodeOutput.commit ++ closureOuts
        ∧ commitData cs = proposalsOf [NodeEvent.propose "foo", NodeEvent.propose "bar"] :=
  ⟨by decide,
   close_inflight_delivers [NodeEvent.propose "foo", NodeEvent.propose "bar"] []
     (by decide)⟩

/-- C5: the Proposal Pipe's Close is idempotent, and a submission made
after Close is a silent no-op: the pipe is unchanged (nothing is
accepted) and the operation totally returns, with no error outcome in
its type. -/
theorem propose_pipe_close_idempotent (p : ProposePipe) (s : String) :
    p.close.close = p.close ∧ p.close.propose s = p.close := by
  cases p
  constructor <;> simp [ProposePipe.close, ProposePipe.propose]

/-- C6: a GET (with linearizable-read confirmation succeeding) for a key
the store has never set answers 404; a PUT of a value for that key
proposes exactly that key-value pair, and once that proposal has
committed and been applied to the store, a GET for the same key answers
200 with exactly the bytes that were written. -/
theorem get_unset_and_put_get (store : String → Option String) (n : Nat) (b : Bool)
    (k v : String) (hunset : store k = none) :
    (serveHTTP store n b ⟨.get, k, none, true⟩).status = 404
    ∧ (serveHTTP store n b ⟨.put, k, some v, true⟩).proposals = [(k, v)]
    ∧ (serveHTTP store n b ⟨.put, k, some v, true⟩).status = 204
    ∧ (serveHTTP (kvApplyCommit store (k, v)) n b ⟨.get, k, none, true⟩).status = 200
    ∧ (serveHTTP (kvApplyCommit store (k, v)) n b ⟨.get, k, none, true⟩).body = v := by
  simp [serveHTTP, hunset, kvApplyCommit]

theorem get_unset_and_put_get_witness :
    ((fun _ : String => (none : Option String)) "/test-key" = none)
    ∧ ((serveHTTP (fun _ => none) 1 true ⟨.get, "/test-key", none, true⟩).status = 404
       ∧ (serveHTTP (fun _ => none) 1 true
            ⟨.put, "/test-key", some "test-value", true⟩).proposals
          = [("/test-key", "test-value")]
       ∧ (serveHTTP (fun _ => none) 1 true
            ⟨.put, "/test-key", some "test-value", true⟩).status = 204
       ∧ (serveHTTP (kvApplyCommit (fun _ => none) ("/test-key", "test-value")) 1 true
            ⟨.get, "/test-key", none, true⟩).status = 200
       ∧ (serveHTTP (kvApplyCommit (fun _ => none) ("/test-key", "test-value")) 1 true
            ⟨.get, "/test-key", none, true⟩).body = "test-value") :=
  ⟨rfl, get_unset_and_put_get (fun _ => none) 1 true "/test-key" "test-value" rfl⟩

/-- C7: when the linearizable-read confirmation fails on a GET, the
handler answers 400 without consulting the store (the response is the
same for every store) and emits no proposal and no configuration
change, so nothing of the node's state is touched. -/
theorem linearizable_read_failure (store store2 : String → Option String) (n : Nat)
    (b : Bool) (uri : String) (body : Option String) :
    (serveHTTP store n b ⟨.get, uri, body, false⟩).status = 400
    ∧ serveHTTP store n b ⟨.get, uri, body, false⟩
        = serveHTTP store2 n b ⟨.get, uri, body, false⟩
    ∧ (serveHTTP store n b ⟨.get, uri, body, false⟩).proposals = []
    ∧ (serveHTTP store n b ⟨.get, uri, body, false⟩).confChanges = [] := by
  simp [serveHTTP]

/-- C8: a POST to `/nodeID` whose path parses submits an add-node
configuration change carrying that node ID with the body as the peer
address, and a DELETE of `/nodeID` submits a remove-node change for
that ID; in both cases the handler answers 204 immediately on
submission (the response depends on nothing but the request). -/
theorem conf_change_submission (store : String → Option String) (n nid : Nat)
    (b : Bool) (uri addr : String) (hparse : parseUint0 (uri.drop 1) = some nid) :
    (serveHTTP store n b ⟨.post, uri, some addr, true⟩).status = 204
    ∧ (serveHTTP store n b ⟨.post, uri, some addr, true⟩).confChanges
        = [⟨.add, nid, addr⟩]
    ∧ (serveHTTP store n b ⟨.delete, uri, none, true⟩).status = 204
    ∧ (serveHTTP store n b ⟨.delete, uri, none, true⟩).confChanges
        = [⟨.remove, nid, ""⟩] := by
  simp [serveHTTP, hparse]

theorem conf_change_submission_witness :
    (parseUint0 ("/4".drop 1) = some 4)
    ∧ ((serveHTTP (fun _ => none) 1 true
          ⟨.post, "/4", some "http://127.0.0.1:10004", true⟩).status = 204
       ∧ (serveHTTP (fun _ => none) 1 true
            ⟨.post, "/4", some "http://127.0.0.1:10004", true⟩).confChanges
          = [⟨.add, 4, "http://127.0.0.1:10004"⟩]
       ∧ (serveHTTP (fun _ => none) 1 true ⟨.delete, "/4", none, true⟩).status = 204
       ∧ (serveHTTP (fun _ => none) 1 true ⟨.delete, "/4", none, true⟩).confChanges
          = [⟨.remove, 4, ""⟩]) :=
  ⟨by decide,
   conf_change_submission (fun _ => none) 1 4 true "/4" "http://127.0.0.1:10004"
     (by decide)⟩

/-- C9: a HEAD request is answered 200 with the X-ID header carrying
the node's numeric ID in decimal and the X-IS-Leader header carrying
its leadership flag. -/
theorem head_reports_identity (store : String → Option String) (n : Nat) (b : Bool)
    (uri : String) (body : Option String) (lin : Bool) :
    (serveHTTP store n b ⟨.head, uri, body, lin⟩).status = 200
    ∧ (serveHTTP store n b ⟨.head, uri, body, lin⟩).headers
        = [("X-ID", toString n), ("X-IS-Leader", if b then "true" else "false")] := by
  simp [serveHTTP]

/-- C10: the handler is atomic on malformed input: a PUT whose body
cannot be read, a POST whose body cannot be read or whose node ID (the
path after the leading slash, parsed as a base-prefixed unsigned 64-bit
integer) does not parse, and a DELETE whose node ID does not parse each
answer 400 Bad Request with no proposal, no configuration change, and
no other effect. -/
theorem malformed_input_atomic (store : String → Option String) (n : Nat) (b : Bool)
    (uri addr : String) (hparse : parseUint0 (uri.drop 1) = none) :
    serveHTTP store n b ⟨.put, uri, none, true⟩
      = ⟨400, "Failed on PUT", [], [], []⟩
    ∧ serveHTTP store n b ⟨.post, uri, none, true⟩
      = ⟨400, "Failed on POST", [], [], []⟩
    ∧ serveHTTP store n b ⟨.post, uri, some addr, true⟩
      = ⟨400, "Failed on POST", [], [], []⟩
    ∧ serveHTTP store n b ⟨.delete, uri, none, true⟩
      = ⟨400, "Failed on DELETE", [], [], []⟩ := by
  simp [serveHTTP, hparse]

theorem malformed_input_atomic_witness :
    (parseUint0 ("/abc".drop 1) = none)
    ∧ (serveHTTP (fun _ => none) 1 true ⟨.put, "/abc", none, true⟩
        = ⟨400, "Failed on PUT", [], [], []⟩
       ∧ serveHTTP (fun _ => none) 1 true ⟨.post, "/abc", none, true⟩
        = ⟨400, "Failed on POST", [], [], []⟩
       ∧ serveHTTP (fun _ => none) 1 true ⟨.post, "/abc", some "addr", true⟩
        = ⟨400, "Failed on POST", [], [], []⟩
       ∧ serveHTTP (fun _ => none) 1 true ⟨.delete, "/abc", none, true⟩
        = ⟨400, "Failed on DELETE", [], [], []⟩) :=
  ⟨by decide, malformed_input_atomic (fun _ => none) 1 true "/abc" "addr" (by decide)⟩

end Metcd
